import Mathlib

/-!
Verification development for the CSV column-replacement tools of the
repository (the reference implementation `Tool.cpp` and, where a claim
cites them, the alternative solutions).  Lines and fields are modelled as
character lists; file contents as the character list read from the stream.
-/

/-- Characters of a line or of a whole file, as read from the stream. -/
abbrev Str := List Char

/-- Split a character sequence at every occurrence of the delimiter `d`,
always emitting the final (possibly empty) segment.  This is the semantics
of the scanning loop in `parseCSV` of solution_03: a field is emitted at
each delimiter and once more at the end of the line.  The result is never
the empty list. -/
def splitOnC (d : Char) : Str → List Str
  | [] => [[]]
  | c :: cs =>
    if c = d then [] :: splitOnC d cs
    else (splitOnC d cs).modifyHead (fun t => c :: t)

/-- Semantics of a `while (std::getline(stream, cell, d))` loop: segments of
the input split at `d`, except that when the input ends in `d` (or is empty)
the final empty segment is not produced, because the last `getline` call
extracts no characters and fails.  Both the line loop of `main` (delimiter
the newline) and `split_line_into_tokens` (delimiter the comma) in
`Tool.cpp` have this shape. -/
def getlineSplit (d : Char) (s : Str) : List Str :=
  let parts := splitOnC d s
  if parts.getLast? = some [] then parts.dropLast else parts

/-- `Tool.cpp`, `split_line_into_tokens`: reads comma-separated cells from a
string stream with `std::getline`. -/
def split_line_into_tokens (line : Str) : List Str :=
  getlineSplit ',' line

/-- The successive results of `std::getline(input_file, line)` on a file
with the given contents. -/
def getLines (content : Str) : List Str :=
  getlineSplit '\n' content

/-- `Tool.cpp`, `merge_tokens_into_line`: streams every token followed by a
comma into a string, then pops the final character when the string is
non-empty. -/
def merge_tokens_into_line (tokens : List Str) : Str :=
  let line := tokens.foldl (fun acc token => acc ++ token ++ [',']) []
  if line = [] then line else line.dropLast

/-- solution_03, `parseCSV`: scans the line, emitting a field (possibly
empty, via `addField`) at every comma and a final field at the end of the
line. -/
def parseCSV (line : Str) : List Str :=
  splitOnC ',' line

/-- `Tool.cpp`, lines 130-136: `std::find` over the header names followed by
`std::distance`, i.e. the zero-based index of the first exact match, with
the end iterator (here `none`) signalling that the name was not found. -/
def find_column (names : List Str) (wanted : Str) : Option Nat :=
  match names with
  | [] => none
  | n :: rest =>
    if n = wanted then some 0 else (find_column rest wanted).map (fun i => i + 1)

/-- `Tool.cpp`, the `while (std::getline(input_file, line))` loop of `main`
(lines 145-158): each data line is tokenized; a line whose token count
equals the header count has the token at the resolved position overwritten
and is merged and written to the output file; any other line is reported on
standard output (the program prints the merged tokens after
"skipping line: ") and skipped.  Returns (lines written, skip diagnostics),
each in stream order. -/
def process_rows (ncols pos : Nat) (value : Str) : List Str → List Str × List Str
  | [] => ([], [])
  | line :: rest =>
    let r := process_rows ncols pos value rest
    let tokens := split_line_into_tokens line
    if tokens.length = ncols then
      (merge_tokens_into_line (tokens.set pos value) :: r.1, r.2)
    else
      (r.1, merge_tokens_into_line tokens :: r.2)

/-- Number of data lines whose token count differs from the header count. -/
def count_malformed (ncols : Nat) (rows : List Str) : Nat :=
  (rows.filter (fun l => (split_line_into_tokens l).length != ncols)).length

/-- The fatal error messages `Tool.cpp` can print to `std::cerr`:
`input_file_missing` stands for the exact text "input file missing"
(line 118) and `column_missing_msg` for the exact text
"column name doesn\x27t exists in the input file" (line 133). -/
inductive err_msg where
  | input_file_missing : err_msg
  | column_missing_msg : err_msg
deriving DecidableEq, Repr

/-- Observable outcome of one invocation of `Tool.cpp`.  `message` is the
fatal error printed to `std::cerr` (there is at most one, and nothing else
is ever printed there); `output` is `some` of the list of lines written to
the output file when and only when the `std::ofstream` at line 141 is
opened, `none` when the program exits before that point, so that a
pre-existing file at the output path is untouched; `skipped` is the list of
merged token lists reported on `std::cout` for skipped rows (each printed
after "skipping line: ").  No other console or filesystem effect exists. -/
structure Outcome where
  exit_code : Nat
  message : Option err_msg
  output : Option (List Str)
  skipped : List Str
deriving DecidableEq, Repr

/-- `Tool.cpp`, `main`.  `argv` is the full argument vector including the
program name, so the source's check `argc != NUMBER_OF_PARAMETERS + 1`
becomes `argv.length ≠ 5`, and the positional parameters sit at indices
1..4 as in `parameter_position`.  `input` is `some` of the input file's
contents when `fs::exists` holds (an existing file that yields no line,
e.g. an empty one, is `some []`), `none` otherwise.  Error codes 1, 2, 3
are `NOT_ENOUGH_PARAMETERS`, `NO_CSV_INPUT_FILE`, `NO_COLUMN_NAME`. -/
def tool_main (argv : List Str) (input : Option Str) : Outcome :=
  if argv.length ≠ 5 then
    { exit_code := 1, message := none, output := none, skipped := [] }
  else
    match input with
    | none =>
      { exit_code := 2, message := some err_msg.input_file_missing,
        output := none, skipped := [] }
    | some content =>
      let lines := getLines content
      let column_line := lines.headD []
      let column_names := split_line_into_tokens column_line
      let wanted_column := argv.getD 2 []
      match find_column column_names wanted_column with
      | none =>
        { exit_code := 3, message := some err_msg.column_missing_msg,
          output := none, skipped := [] }
      | some column_position =>
        let wanted_value := argv.getD 3 []
        let r := process_rows column_names.length column_position wanted_value lines.tail
        { exit_code := 0, message := none,
          output := some (column_line :: r.1), skipped := r.2 }

/-- The messages solution_01 can print (each before aborting): the texts of
its four `runtime_error` throws. -/
inductive fg_msg where
  | bad_arguments : fg_msg
  | unable_to_open_input : fg_msg
  | input_missing : fg_msg
  | column_missing : fg_msg
deriving DecidableEq, Repr

/-- Observable outcome of one invocation of solution_01
(Fernando B. Giannasi).  `output_created` records whether the
`std::ofstream` of `get_file_handlers` (opened with `ios::trunc`) was
constructed, which creates the output path or truncates a pre-existing
file there; `exit_ok` is whether the process terminates normally (every
caught error calls `usage_terminate`, which prints the usage line and
calls `abort()`); `usage_printed` records that usage line. -/
structure fg_outcome where
  output_created : Bool
  exit_ok : Bool
  message : Option fg_msg
  usage_printed : Bool
deriving DecidableEq, Repr

/-- solution_01, `main`.  With a wrong argument count, or an input file
that cannot be opened, it throws before `get_file_handlers` opens the
output stream; otherwise `get_file_handlers` (lines 64-73) opens BOTH
files up front, with the output truncated, and only afterwards does
`get_target_column` read the header (throwing "Input file missing" when
the first line is empty) and resolve the column (empty optional when the
name is absent, turned into a throw by `main`).  Its `split_string` is the
same `std::getline` loop as `split_line_into_tokens`.  The successful
`do_work` path is not modelled beyond the fact that it runs to completion:
no claim in this development depends on its output, only on which paths
have created the output file. -/
def solution_01_main (argv : List Str) (input : Option Str) : fg_outcome :=
  if argv.length ≠ 5 then
    { output_created := false, exit_ok := false,
      message := some fg_msg.bad_arguments, usage_printed := true }
  else
    match input with
    | none =>
      { output_created := false, exit_ok := false,
        message := some fg_msg.unable_to_open_input, usage_printed := true }
    | some content =>
      let fl := (getLines content).headD []
      if fl.length = 0 then
        { output_created := true, exit_ok := false,
          message := some fg_msg.input_missing, usage_printed := true }
      else
        match find_column (split_line_into_tokens fl) (argv.getD 2 []) with
        | none =>
          { output_created := true, exit_ok := false,
            message := some fg_msg.column_missing, usage_printed := true }
        | some _ =>
          { output_created := true, exit_ok := true,
            message := none, usage_printed := false }

/-- The characters of `s` strictly before the first occurrence of `d`. -/
def takeUntil (d : Char) : Str → Str
  | [] => []
  | c :: cs => if c = d then [] else c :: takeUntil d cs

/-- The first line of a file's contents: its bytes up to (excluding) the
first newline, or all of them when there is none. -/
def first_line (s : Str) : Str :=
  takeUntil '\n' s

/-- The bytes the program writes to the output file: each line is streamed
followed by a single newline character (`output_file << line;
output_file << char of newline;`). -/
def render_output (lines : List Str) : Str :=
  lines.foldr (fun l acc => l ++ '\n' :: acc) []

/-- The emission rule of solution_02's `csv_field` input iterator (lines
53-110), expressed on the comma-separated segments of the line.  The
iterator holds `startIndex`/`endIndex` bounds of the current field, and
`operator==` makes every state with `startIndex == endIndex` equal to the
default-constructed end sentinel.  Hence an empty segment that is followed
by a delimiter (`endIndex != npos` and equal to `startIndex`) IS the
sentinel: iteration stops without emitting it, and the rest of the line is
lost.  A non-empty segment is emitted and `operator++` moves past the
delimiter.  The final segment (`endIndex == npos`, so
`startIndex != endIndex` even when the segment is empty) is always
emitted, after which `operator++` sets both indices to npos and reaches
the sentinel. -/
def s02_walk : List Str → List Str
  | [] => []
  | [f] => [f]
  | f :: rest => if f = [] then [] else f :: s02_walk rest

/-- solution_02, `parse_line` (lines 112-115): the vector constructed from
the `csv_field` iterator range over the line. -/
def s02_parse_line (line : Str) : List Str :=
  s02_walk (splitOnC ',' line)

/-- solution_02's per-row `std::transform` lambda (lines 155-160): walks
the parsed fields with a running counter `index`, producing the
replacement value where the counter equals the resolved header index and
the field itself elsewhere. -/
def s02_transform (hIndex : Nat) (value : Str) : Nat → List Str → List Str
  | _, [] => []
  | i, f :: rest =>
    (if hIndex = i then value else f) :: s02_transform hIndex value (i + 1) rest

/-- `std::experimental::make_ostream_joiner(outputFile, DELIM)` as used by
solution_02: the written elements separated by single commas. -/
def s02_join : List Str → Str
  | [] => []
  | [f] => f
  | f :: rest => f ++ ',' :: s02_join rest

/-- The messages solution_02 prints through its catch handler: the texts
of its three throws ("invalid argument count", "input file missing",
"column name doesn\x27t exist in the input file"). -/
inductive s02_msg where
  | invalid_arg_count : s02_msg
  | input_missing_msg : s02_msg
  | column_missing : s02_msg
deriving DecidableEq, Repr

/-- Observable outcome of solution_02 (William Killian): `exit_ok` is true
exactly on the EXIT_SUCCESS path, `message` the text printed to cerr by
the catch handler, `output` the lines written to the output file, which is
opened only on the success path. -/
structure s02_outcome where
  exit_ok : Bool
  message : Option s02_msg
  output : Option (List Str)
deriving DecidableEq, Repr

/-- solution_02, `main` (lines 129-168): a wrong argument count, a missing
or unopenable input file, and a missing or empty first line each throw
before the output is opened; otherwise the header line is parsed with the
`csv_field` iterator, the column resolved with `std::find` over the
parsed fields (`index_of_header`), and on success the output receives the
PARSED header fields re-joined with commas (lines 148-150), then every
data line parsed the same way and re-joined with the field at the
resolved index replaced. -/
def s02_main (argv : List Str) (input : Option Str) : s02_outcome :=
  if argv.length ≠ 5 then
    { exit_ok := false, message := some s02_msg.invalid_arg_count, output := none }
  else
    match input with
    | none =>
      { exit_ok := false, message := some s02_msg.input_missing_msg, output := none }
    | some content =>
      let line := (getLines content).headD []
      if line = [] then
        { exit_ok := false, message := some s02_msg.input_missing_msg, output := none }
      else
        let header := s02_parse_line line
        match find_column header (argv.getD 2 []) with
        | none =>
          { exit_ok := false, message := some s02_msg.column_missing, output := none }
        | some hIndex =>
          let value := argv.getD 3 []
          let rows := (getLines content).tail.map
            (fun l => s02_join (s02_transform hIndex value 0 (s02_parse_line l)))
          { exit_ok := true, message := none,
            output := some (s02_join header :: rows) }

/-- solution_03, `writeCSV` (lines 46-54): every field but the last is
written followed by a comma, then the last field.  The vector `parseCSV`
produces is never empty, so the `fields.size() - 1` loop bound is safe
there. -/
def writeCSV : List Str → Str
  | [] => []
  | [f] => f
  | f :: rest => f ++ ',' :: writeCSV rest

/-- solution_03's row loop (lines 108-115): each data line is parsed with
`parseCSV`; `ensure(fields.size() == total_fields, ... "error in csv
file")` prints its message and calls `exit(0)` at the FIRST mismatched
row, so the rows already written stay in the output (the global stream
destructors flush on exit) and no later row is processed; a matching row
has the field at the resolved index overwritten and is written.  Returns
the rows written and whether the loop was aborted by a mismatch. -/
def s03_process (total nfield : Nat) (value : Str) : List Str → List Str × Bool
  | [] => ([], false)
  | l :: rest =>
    let fields := parseCSV l
    if fields.length = total then
      let r := s03_process total nfield value rest
      (writeCSV (fields.set nfield value) :: r.1, r.2)
    else ([], true)

/-- The messages solution_03 prints through a failing `ensure` (which then
calls `exit(0)`). -/
inductive s03_msg where
  | usage : s03_msg
  | cannot_open_input : s03_msg
  | input_empty : s03_msg
  | column_missing : s03_msg
  | csv_error : s03_msg
deriving DecidableEq, Repr

/-- Observable outcome of solution_03 (Balagopal Komarath): the message of
the failing `ensure`, if any, and the lines written to the output file
(`none` when the run ends before `csvout.open`). -/
structure s03_outcome where
  message : Option s03_msg
  output : Option (List Str)
deriving DecidableEq, Repr

/-- solution_03, `main` (lines 72-116).  The argument-count, input-open
and empty-input `ensure`s run before anything is written; the header is
parsed with `parseCSV` and the column resolved with `std::find`; then the
output is opened, the re-joined header written, and the data lines run
through the loop embedded as `s03_process`.  `getline` fails on the first
read exactly when the contents yield no line. -/
def s03_main (argv : List Str) (input : Option Str) : s03_outcome :=
  if argv.length ≠ 5 then { message := some s03_msg.usage, output := none }
  else
    match input with
    | none => { message := some s03_msg.cannot_open_input, output := none }
    | some content =>
      match getLines content with
      | [] => { message := some s03_msg.input_empty, output := none }
      | buffer :: rest =>
        let fields := parseCSV buffer
        match find_column fields (argv.getD 2 []) with
        | none => { message := some s03_msg.column_missing, output := none }
        | some nfield =>
          let r := s03_process fields.length nfield (argv.getD 3 []) rest
          { message := if r.2 then some s03_msg.csv_error else none,
            output := some (writeCSV fields :: r.1) }

/-! ## Basic facts about the tokenizers and the joiner -/

theorem splitOnC_ne_nil (d : Char) (s : Str) : splitOnC d s ≠ [] := by
  induction s with
  | nil => simp [splitOnC]
  | cons c cs ih =>
    simp only [splitOnC]
    split
    · simp
    · cases h : splitOnC d cs with
      | nil => exact absurd h ih
      | cons t ts => simp [h]

theorem splitOnC_eq_single_nil (d : Char) (s : Str) (h : splitOnC d s = [[]]) :
    s = [] := by
  cases s with
  | nil => rfl
  | cons c cs =>
    exfalso
    simp only [splitOnC] at h
    split at h
    · exact splitOnC_ne_nil d cs (by simpa using h)
    · cases heq : splitOnC d cs with
      | nil => exact splitOnC_ne_nil d cs heq
      | cons t ts => rw [heq] at h; simp at h

theorem headD_splitOnC (d : Char) (s : Str) :
    (splitOnC d s).headD [] = takeUntil d s := by
  induction s with
  | nil => simp [splitOnC, takeUntil]
  | cons c cs ih =>
    simp only [splitOnC, takeUntil]
    split
    · simp
    · cases h : splitOnC d cs with
      | nil => exact absurd h (splitOnC_ne_nil d cs)
      | cons t ts =>
        rw [h] at ih
        simp only [List.headD_cons] at ih
        simp [h, ih]

theorem headD_getlineSplit (d : Char) (s : Str) :
    (getlineSplit d s).headD [] = takeUntil d s := by
  rw [← headD_splitOnC d s]
  simp only [getlineSplit]
  split
  · rename_i hlast
    cases h : splitOnC d s with
    | nil => exact absurd h (splitOnC_ne_nil d s)
    | cons t ts =>
      cases ts with
      | nil =>
        rw [h] at hlast
        simp only [List.getLast?_singleton, Option.some.injEq] at hlast
        subst hlast
        have := splitOnC_eq_single_nil d s h
        subst this
        simp [splitOnC] at h ⊢
      | cons u us => simp [h, List.dropLast]
  · rfl

theorem takeUntil_not_mem (d : Char) (s : Str) : d ∉ takeUntil d s := by
  induction s with
  | nil => simp [takeUntil]
  | cons c cs ih =>
    simp only [takeUntil]
    split
    · simp
    · rename_i hc
      intro hmem
      rcases List.mem_cons.mp hmem with h | h
      · exact hc h.symm
      · exact ih h

theorem takeUntil_append (d : Char) (a x : Str) (h : d ∉ a) :
    takeUntil d (a ++ d :: x) = a := by
  induction a with
  | nil => simp [takeUntil]
  | cons c cs ih =>
    simp only [List.cons_append, takeUntil, List.append_eq]
    rw [if_neg (fun hc => h (by rw [hc]; exact List.mem_cons_self d cs))]
    rw [ih (fun hm => h (List.mem_cons_of_mem c hm))]

theorem not_mem_of_mem_splitOnC (d : Char) (s t : Str)
    (h : t ∈ splitOnC d s) : d ∉ t := by
  induction s generalizing t with
  | nil =>
    simp only [splitOnC, List.mem_singleton] at h
    subst h; simp
  | cons c cs ih =>
    simp only [splitOnC] at h
    split at h
    · rcases List.mem_cons.mp h with rfl | h
      · simp
      · exact ih t h
    · rename_i hc
      cases heq : splitOnC d cs with
      | nil => exact absurd heq (splitOnC_ne_nil d cs)
      | cons u us =>
        rw [heq] at h
        simp only [List.modifyHead_cons] at h
        rcases List.mem_cons.mp h with rfl | h
        · intro hmem
          rcases List.mem_cons.mp hmem with hd | hd
          · exact hc hd.symm
          · exact ih u (by rw [heq]; exact List.mem_cons_self u us) hd
        · exact ih t (by rw [heq]; exact List.mem_cons_of_mem u h)

theorem not_mem_of_mem_getlineSplit (d : Char) (s t : Str)
    (h : t ∈ getlineSplit d s) : d ∉ t := by
  apply not_mem_of_mem_splitOnC d s t
  simp only [getlineSplit] at h
  split at h
  · exact List.dropLast_subset _ h
  · exact h

theorem splitOnC_of_not_mem (d : Char) (s : Str) (h : d ∉ s) :
    splitOnC d s = [s] := by
  induction s with
  | nil => rfl
  | cons c cs ih =>
    simp only [splitOnC]
    rw [if_neg (fun hc => h (by rw [hc]; exact List.mem_cons_self d cs))]
    rw [ih (fun hm => h (List.mem_cons_of_mem c hm))]
    rfl

theorem splitOnC_append (d : Char) (a rest : Str) (h : d ∉ a) :
    splitOnC d (a ++ d :: rest) = a :: splitOnC d rest := by
  induction a with
  | nil => simp [splitOnC]
  | cons c cs ih =>
    simp only [List.cons_append, splitOnC, List.append_eq]
    rw [if_neg (fun hc => h (by rw [hc]; exact List.mem_cons_self d cs))]
    rw [ih (fun hm => h (List.mem_cons_of_mem c hm))]
    rfl

theorem splitOnC_concat (d : Char) (s : Str) :
    splitOnC d (s ++ [d]) = splitOnC d s ++ [[]] := by
  induction s with
  | nil => simp [splitOnC]
  | cons c cs ih =>
    simp only [List.cons_append, splitOnC, List.append_eq]
    rw [ih]
    split
    · rfl
    · cases heq : splitOnC d cs with
      | nil => exact absurd heq (splitOnC_ne_nil d cs)
      | cons u us => simp [heq]

/-! ## The joiner and the split/merge round trip -/

theorem merge_foldl_init (init : Str) (ts : List Str) :
    ts.foldl (fun acc token => acc ++ token ++ [',']) init
      = init ++ ts.foldl (fun acc token => acc ++ token ++ [',']) [] := by
  induction ts generalizing init with
  | nil => simp
  | cons t ts ih =>
    simp only [List.foldl_cons]
    rw [ih (init ++ t ++ [','])]
    rw [ih ([] ++ t ++ [','])]
    simp

theorem merge_foldl_ne_nil (ts : List Str) (h : ts ≠ []) :
    ts.foldl (fun acc token => acc ++ token ++ [',']) [] ≠ [] := by
  cases ts with
  | nil => exact absurd rfl h
  | cons t ts =>
    simp only [List.foldl_cons]
    rw [merge_foldl_init]
    simp

theorem merge_nil : merge_tokens_into_line [] = [] := rfl

theorem merge_single (t : Str) : merge_tokens_into_line [t] = t := by
  simp only [merge_tokens_into_line, List.foldl_cons, List.foldl_nil, List.nil_append]
  rw [if_neg (by simp)]
  simp

theorem merge_cons (t : Str) (ts : List Str) (h : ts ≠ []) :
    merge_tokens_into_line (t :: ts) = t ++ ',' :: merge_tokens_into_line ts := by
  have hL := merge_foldl_ne_nil ts h
  simp only [merge_tokens_into_line, List.foldl_cons, List.nil_append]
  rw [merge_foldl_init (t ++ [','])]
  rw [if_neg (by simp)]
  rw [if_neg hL]
  rw [List.dropLast_append_of_ne_nil (t ++ [',']) hL]
  simp

theorem splitOnC_merge (ts : List Str) (h : ts ≠ [])
    (hc : ∀ t ∈ ts, ',' ∉ t) :
    splitOnC ',' (merge_tokens_into_line ts) = ts := by
  induction ts with
  | nil => exact absurd rfl h
  | cons t ts ih =>
    cases ts with
    | nil =>
      rw [merge_single]
      exact splitOnC_of_not_mem ',' t (hc t (List.mem_cons_self t []))
    | cons u us =>
      rw [merge_cons t (u :: us) (by simp)]
      rw [splitOnC_append ',' t _ (hc t (List.mem_cons_self t (u :: us)))]
      rw [ih (by simp) (fun x hx => hc x (List.mem_cons_of_mem t hx))]

theorem split_merge (ts : List Str) (hc : ∀ t ∈ ts, ',' ∉ t) :
    split_line_into_tokens (merge_tokens_into_line ts)
      = if ts.getLast? = some [] then ts.dropLast else ts := by
  cases ts with
  | nil => rfl
  | cons t ts =>
    rw [split_line_into_tokens, getlineSplit]
    rw [splitOnC_merge (t :: ts) (by simp) hc]

/-! ## Indexing helpers -/

theorem getD_set_self {α : Type} (l : List α) (i : Nat) (v d : α)
    (h : i < l.length) : (l.set i v).getD i d = v := by
  induction l generalizing i with
  | nil => simp at h
  | cons a l ih =>
    cases i with
    | zero => rfl
    | succ i =>
      simp only [List.set_cons_succ, List.getD_cons_succ]
      exact ih i (by simpa using h)

theorem getD_set_ne {α : Type} (l : List α) (i j : Nat) (v d : α)
    (h : i ≠ j) : (l.set i v).getD j d = l.getD j d := by
  induction l generalizing i j with
  | nil => simp [List.set_nil]
  | cons a l ih =>
    cases i with
    | zero =>
      cases j with
      | zero => exact absurd rfl h
      | succ j => rfl
    | succ i =>
      cases j with
      | zero => rfl
      | succ j =>
        simp only [List.set_cons_succ, List.getD_cons_succ]
        exact ih i j (fun he => h (by rw [he]))

/-! ## First lines -/

theorem first_line_render_cons (l : Str) (rest : List Str) (h : '\n' ∉ l) :
    first_line (render_output (l :: rest)) = l := by
  simp only [render_output, List.foldr_cons, first_line]
  exact takeUntil_append '\n' l _ h

/-! ## Unfolding the row loop -/

theorem process_rows_cons (ncols pos : Nat) (value line : Str) (rest : List Str) :
    process_rows ncols pos value (line :: rest) =
      if (split_line_into_tokens line).length = ncols then
        (merge_tokens_into_line ((split_line_into_tokens line).set pos value)
            :: (process_rows ncols pos value rest).1,
          (process_rows ncols pos value rest).2)
      else
        ((process_rows ncols pos value rest).1,
          merge_tokens_into_line (split_line_into_tokens line)
            :: (process_rows ncols pos value rest).2) := rfl

theorem process_rows_count (ncols pos : Nat) (value : Str) (rows : List Str) :
    (process_rows ncols pos value rows).1.length + count_malformed ncols rows
        = rows.length
    ∧ (process_rows ncols pos value rows).2.length = count_malformed ncols rows := by
  induction rows with
  | nil => simp [process_rows, count_malformed]
  | cons line rest ih =>
    rw [process_rows_cons]
    by_cases h : (split_line_into_tokens line).length = ncols
    · rw [if_pos h]
      simp only [count_malformed, List.filter_cons] at ih ⊢
      rw [if_neg (by simp [h])]
      simp only [List.length_cons]
      omega
    · rw [if_neg h]
      simp only [count_malformed, List.filter_cons] at ih ⊢
      rw [if_pos (by simp [h])]
      simp only [List.length_cons]
      omega

/-! ## The claims -/

/-- C3: for every data row whose field count equals the header field count,
the row written to the output is the merge of the row's tokens with the
token at the resolved target position overwritten; that token list agrees
with the input tokens at every position other than the target and carries
exactly the replacement value at the target. -/
theorem row_transform_single_field (ncols pos : Nat) (value line : Str)
    (rest : List Str)
    (h : (split_line_into_tokens line).length = ncols) (hpos : pos < ncols) :
    (process_rows ncols pos value (line :: rest)).1
        = merge_tokens_into_line ((split_line_into_tokens line).set pos value)
            :: (process_rows ncols pos value rest).1
    ∧ ((split_line_into_tokens line).set pos value).getD pos [] = value
    ∧ ∀ i : Nat, i < ncols → i ≠ pos →
        ((split_line_into_tokens line).set pos value).getD i []
          = (split_line_into_tokens line).getD i [] := by
  refine ⟨?_, ?_, ?_⟩
  · rw [process_rows_cons, if_pos h]
  · exact getD_set_self _ pos value [] (by omega)
  · intro i hi hne
    exact getD_set_ne _ pos i value [] (fun he => hne he.symm)

theorem row_transform_single_field_witness :
    (process_rows 2 0 ['X'] [['a', ',', 'b']]).1
        = merge_tokens_into_line ((split_line_into_tokens ['a', ',', 'b']).set 0 ['X'])
            :: (process_rows 2 0 ['X'] ([] : List Str)).1
    ∧ ((split_line_into_tokens ['a', ',', 'b']).set 0 ['X']).getD 0 [] = ['X']
    ∧ ((split_line_into_tokens ['a', ',', 'b']).set 0 ['X']).getD 1 []
        = (split_line_into_tokens ['a', ',', 'b']).getD 1 [] := by
  have h := row_transform_single_field 2 0 ['X'] ['a', ',', 'b'] []
    (by decide) (by decide)
  exact ⟨h.1, h.2.1, h.2.2 1 (by decide) (by decide)⟩

/-- C5 (amended): in `Tool.cpp`, a data row whose field count differs from
the header's is skipped (nothing is written to the output for it) and one
diagnostic, the merged tokens of the offending line, is emitted;
processing continues, so the output data-row count is the input data-row
count minus the number of malformed rows, with one diagnostic per
malformed row.  The counterexample to the claim as originally scoped is
solution_03, which aborts at the first malformed row. -/
theorem skip_malformed_policy (ncols pos : Nat) (value : Str) :
    (∀ rows : List Str,
        (process_rows ncols pos value rows).1.length
            = rows.length - count_malformed ncols rows
        ∧ (process_rows ncols pos value rows).2.length
            = count_malformed ncols rows)
    ∧ ∀ (line : Str) (rest : List Str),
        (split_line_into_tokens line).length ≠ ncols →
        (process_rows ncols pos value (line :: rest)).1
            = (process_rows ncols pos value rest).1
        ∧ (process_rows ncols pos value (line :: rest)).2
            = merge_tokens_into_line (split_line_into_tokens line)
                :: (process_rows ncols pos value rest).2 := by
  constructor
  · intro rows
    have h := process_rows_count ncols pos value rows
    exact ⟨by omega, h.2⟩
  · intro line rest h
    rw [process_rows_cons, if_neg h]
    exact ⟨rfl, rfl⟩

theorem skip_malformed_policy_witness :
    (process_rows 2 0 ['X'] [['a']]).1.length
        = [['a']].length - count_malformed 2 [['a']]
    ∧ (process_rows 2 0 ['X'] [['a']]).2.length = count_malformed 2 [['a']]
    ∧ (process_rows 2 0 ['X'] [['a']]).1 = (process_rows 2 0 ['X'] ([] : List Str)).1
    ∧ (process_rows 2 0 ['X'] [['a']]).2
        = merge_tokens_into_line (split_line_into_tokens ['a'])
            :: (process_rows 2 0 ['X'] ([] : List Str)).2 := by
  have h1 := (skip_malformed_policy 2 0 ['X']).1 [['a']]
  have h2 := (skip_malformed_policy 2 0 ['X']).2 ['a'] [] (by decide)
  exact ⟨h1.1, h1.2, h2.1, h2.2⟩

/-- C9: the tokenizer applied to the empty line yields zero fields, not one
empty field; consequently, whenever the header has at least one field, an
empty data line has a mismatched field count, is reported as skipped, and
is not written to the output. -/
theorem empty_line_skipped :
    split_line_into_tokens [] = []
    ∧ ∀ (ncols pos : Nat) (value : Str) (rest : List Str), 0 < ncols →
        (process_rows ncols pos value ([] :: rest)).1
            = (process_rows ncols pos value rest).1
        ∧ (process_rows ncols pos value ([] :: rest)).2
            = [] :: (process_rows ncols pos value rest).2 := by
  refine ⟨rfl, ?_⟩
  intro ncols pos value rest h
  have h0 : (split_line_into_tokens ([] : Str)).length = 0 := rfl
  rw [process_rows_cons, if_neg (by omega)]
  constructor
  · rfl
  · rfl

theorem empty_line_skipped_witness :
    split_line_into_tokens [] = []
    ∧ (process_rows 1 0 ['X'] [[]]).1 = (process_rows 1 0 ['X'] ([] : List Str)).1
    ∧ (process_rows 1 0 ['X'] [[]]).2
        = [] :: (process_rows 1 0 ['X'] ([] : List Str)).2 := by
  have h := empty_line_skipped.2 1 0 ['X'] [] (by decide)
  exact ⟨empty_line_skipped.1, h.1, h.2⟩

/-- C8: the column resolver returns `none` exactly when no header field
equals the wanted name, and when it returns an index that index is in
range, the field there equals the name, and every earlier field differs
from it, so with duplicate names the first occurrence wins. -/
theorem find_column_first_match (names : List Str) (wanted : Str) :
    (find_column names wanted = none ↔ wanted ∉ names)
    ∧ ∀ i : Nat, find_column names wanted = some i →
        i < names.length ∧ names.getD i [] = wanted
        ∧ ∀ j : Nat, j < i → names.getD j [] ≠ wanted := by
  induction names with
  | nil => simp [find_column]
  | cons n rest ih =>
    by_cases hn : n = wanted
    · constructor
      · simp [find_column, hn]
      · intro i hi
        simp only [find_column, if_pos hn, Option.some.injEq] at hi
        subst hi
        refine ⟨by simp, by simpa using hn, ?_⟩
        intro j hj
        exact absurd hj (Nat.not_lt_zero j)
    · cases hfr : find_column rest wanted with
      | none =>
        have hnotin : wanted ∉ rest := ih.1.mp hfr
        constructor
        · constructor
          · intro _ hmem
            rcases List.mem_cons.mp hmem with he | he
            · exact hn he.symm
            · exact hnotin he
          · intro _
            simp [find_column, if_neg hn, hfr]
        · intro i hi
          simp [find_column, if_neg hn, hfr] at hi
      | some k =>
        have hmem : wanted ∈ rest := by
          by_contra hc
          have hnone := ih.1.mpr hc
          rw [hnone] at hfr
          exact Option.noConfusion hfr
        constructor
        · constructor
          · intro h
            simp [find_column, if_neg hn, hfr] at h
          · intro hmem_not
            exact (hmem_not (List.mem_cons_of_mem n hmem)).elim
        · intro i hi
          simp only [find_column, if_neg hn, hfr, Option.map_some',
            Option.some.injEq] at hi
          subst hi
          obtain ⟨hk1, hk2, hk3⟩ := ih.2 k hfr
          refine ⟨by simp only [List.length_cons]; omega, by simpa using hk2, ?_⟩
          intro j hj
          cases j with
          | zero =>
            simp only [List.getD_cons_zero]
            exact fun he => hn he
          | succ j' =>
            simp only [List.getD_cons_succ]
            exact hk3 j' (by omega)

theorem find_column_first_match_witness :
    [['B'], ['A'], ['A']].getD 1 [] = ['A']
    ∧ [['B'], ['A'], ['A']].getD 0 [] ≠ ['A'] := by
  have h := (find_column_first_match [['B'], ['A'], ['A']] ['A']).2 1 (by decide)
  exact ⟨h.2.1, h.2.2 0 (by decide)⟩

theorem tool_main_output_cases (argv : List Str) (input : Option Str) :
    (tool_main argv input).output = none ∨ (tool_main argv input).exit_code = 0 := by
  simp only [tool_main]
  split
  · exact Or.inl rfl
  · split
    · exact Or.inl rfl
    · split
      · exact Or.inl rfl
      · exact Or.inr rfl

/-- C1 (amended): in `Tool.cpp` every run that exits with a non-zero code
(usage error, missing input, or unknown column) terminates before the
output stream at line 141 is opened, so the output path is neither created
nor modified; the counterexample to the original claim is solution_01,
which opens and truncates the output before header parsing. -/
theorem no_output_on_failure (argv : List Str) (input : Option Str)
    (h : (tool_main argv input).exit_code ≠ 0) :
    (tool_main argv input).output = none :=
  (tool_main_output_cases argv input).resolve_right h

theorem no_output_on_failure_witness :
    (tool_main [] none).output = none :=
  no_output_on_failure [] none (by decide)

/-- C1 counterexample: solution_01, invoked with an existing, well-formed
input file whose header is "A,B" and the unknown column name "C", fails
with its UnknownColumnError, yet its output file has already been created
and truncated by `get_file_handlers`. -/
theorem output_created_on_failure_sol01 :
    (solution_01_main [['t'], ['i'], ['C'], ['v'], ['o']]
        (some ['A', ',', 'B'])).output_created = true
    ∧ (solution_01_main [['t'], ['i'], ['C'], ['v'], ['o']]
        (some ['A', ',', 'B'])).exit_ok = false
    ∧ (solution_01_main [['t'], ['i'], ['C'], ['v'], ['o']]
        (some ['A', ',', 'B'])).message = some fg_msg.column_missing := by decide

/-- C2 (code bug): on an input file that exists but is empty, `Tool.cpp`
passes the `fs::exists` check, the header read yields no columns, and the
run fails in column resolution: it prints the column-missing message (the
text "column name doesn\x27t exists in the input file") and exits with
code 3 (`NO_COLUMN_NAME`), not the message "input file missing" with code
2 that the claim, the challenge statement quoted at the top of `Tool.cpp`,
and solution_02 prescribe.  No output file is created and the exit status
is non-zero, as claimed. -/
theorem empty_input_misclassified :
    tool_main [['t'], ['i'], ['C'], ['v'], ['o']] (some []) =
      { exit_code := 3, message := some err_msg.column_missing_msg,
        output := none, skipped := [] }
    ∧ err_msg.column_missing_msg ≠ err_msg.input_file_missing := by decide

theorem header_no_newline (content : Str) :
    '\n' ∉ (getLines content).headD [] := by
  cases hL : getLines content with
  | nil => simp
  | cons a as =>
    simp only [List.headD_cons]
    apply not_mem_of_mem_getlineSplit '\n' content a
    rw [show getlineSplit '\n' content = getLines content from rfl, hL]
    exact List.mem_cons_self a as

theorem tool_main_output_head (argv : List Str) (content : Str) (out : List Str)
    (h : (tool_main argv (some content)).output = some out) :
    ∃ tl, out = (getLines content).headD [] :: tl := by
  simp only [tool_main] at h
  split at h
  · exact absurd h (by simp)
  · split at h
    · exact absurd h (by simp)
    · simp only [Option.some.injEq] at h
      exact ⟨_, h.symm⟩

/-- C4 (amended): on every run of `Tool.cpp` that opens the output file,
the first line of the bytes written to the output is byte-identical to the
first line of the input file's contents: `Tool.cpp` writes the header line
back raw, never re-tokenized and re-joined.  The counterexample to the
claim as originally scoped is solution_02, which re-joins its lossy parse
of the header. -/
theorem header_preserved (argv : List Str) (content : Str) (out : List Str)
    (h : (tool_main argv (some content)).output = some out) :
    first_line (render_output out) = first_line content := by
  obtain ⟨tl, rfl⟩ := tool_main_output_head argv content out h
  rw [first_line_render_cons _ _ (header_no_newline content)]
  rw [first_line, ← headD_getlineSplit '\n' content]
  rfl

theorem header_preserved_witness :
    first_line (render_output [['A', ',', 'B'], ['X', ',', '2']])
      = first_line ['A', ',', 'B', '\n', '1', ',', '2'] :=
  header_preserved [['t'], ['i'], ['A'], ['X'], ['o']]
    ['A', ',', 'B', '\n', '1', ',', '2']
    [['A', ',', 'B'], ['X', ',', '2']] (by decide)

/-- C6 counterexample: `Tool.cpp`'s tokenizer drops the field after a
final trailing comma: the line "a," (one comma) yields the single field
"a", not two fields with a trailing empty one. -/
theorem trailing_delimiter_dropped :
    split_line_into_tokens ['a', ','] = [['a']]
    ∧ (split_line_into_tokens ['a', ',']).length ≠ 2
    ∧ (split_line_into_tokens ['a', ',']).getLast? ≠ some [] := by decide

/-- C6 (amended): solution_03's `parseCSV` does give a line ending in the
delimiter a trailing empty field (one field more than the same line
without that delimiter); `Tool.cpp`'s `split_line_into_tokens` instead
drops exactly that final empty field, returning for a line ending in a
comma the same tokens `parseCSV` returns for the line without it. -/
theorem trailing_delimiter_field (s : Str) :
    parseCSV (s ++ [',']) = parseCSV s ++ [[]]
    ∧ split_line_into_tokens (s ++ [',']) = parseCSV s := by
  constructor
  · exact splitOnC_concat ',' s
  · simp only [split_line_into_tokens, getlineSplit, splitOnC_concat ',' s]
    rw [if_pos (List.getLast?_concat _)]
    simp [parseCSV]

theorem trailing_delimiter_field_witness :
    parseCSV (['a'] ++ [',']) = parseCSV ['a'] ++ [[]]
    ∧ split_line_into_tokens (['a'] ++ [',']) = parseCSV ['a'] :=
  trailing_delimiter_field ['a']

/-- C7 counterexample: invoked with too few arguments, `Tool.cpp` exits
with code 1 but prints nothing at all: no usage message appears on either
stream (`message` and `skipped` model everything the program prints). -/
theorem wrong_argc_prints_nothing :
    tool_main [['t'], ['i'], ['C']] none =
      { exit_code := 1, message := none, output := none, skipped := [] } := by decide

/-- C7 (amended): with an argument count other than 4 positional
arguments, `Tool.cpp` exits with the non-zero code 1 and touches no output
file but prints no usage message (it prints nothing); solution_01 in the
same situation does print a usage message and aborts. -/
theorem wrong_argc_behavior (argv : List Str) (input : Option Str)
    (h : argv.length ≠ 5) :
    tool_main argv input =
      { exit_code := 1, message := none, output := none, skipped := [] }
    ∧ (solution_01_main argv input).usage_printed = true
    ∧ (solution_01_main argv input).exit_ok = false := by
  refine ⟨by simp [tool_main, h], ?_, ?_⟩ <;> simp [solution_01_main, h]

theorem wrong_argc_behavior_witness :
    tool_main [] none =
      { exit_code := 1, message := none, output := none, skipped := [] }
    ∧ (solution_01_main [] none).usage_printed = true
    ∧ (solution_01_main [] none).exit_ok = false :=
  wrong_argc_behavior [] none (by decide)

/-- C10 counterexample: a successful `Tool.cpp` run with the comma-free
replacement value "X" on the input "A,B\na,," (whose data row tokenizes
to the two fields "a" and "") writes the data line "X,", which tokenizes
back to a single field, not to the header's field count of 2. -/
theorem replacement_no_comma_not_sufficient :
    ',' ∉ (['X'] : Str)
    ∧ (tool_main [['t'], ['i'], ['A'], ['X'], ['o']]
        (some ['A', ',', 'B', '\n', 'a', ',', ','])).output
        = some [['A', ',', 'B'], ['X', ',']]
    ∧ (split_line_into_tokens ['X', ',']).length = 1
    ∧ (split_line_into_tokens ['A', ',', 'B']).length = 2 := by decide

/-- C10 (amended): when a data row tokenizes to exactly the header's field
count and the replacement value contains no comma, the line written for it
(the merge of the tokens with the target position overwritten) tokenizes
back to the header's field count, unless the transformed row's final field
is empty, in which case the tokenizer drops that trailing empty field and
the line tokenizes to one field fewer.  The replacement value is never
checked for the delimiter, so the comma-free precondition is essential. -/
theorem output_row_tokenization (line value : Str) (ncols pos : Nat)
    (h : (split_line_into_tokens line).length = ncols) (hpos : pos < ncols)
    (hv : ',' ∉ value) :
    (split_line_into_tokens
        (merge_tokens_into_line ((split_line_into_tokens line).set pos value))).length
      = if ((split_line_into_tokens line).set pos value).getLast? = some []
        then ncols - 1 else ncols := by
  have hcomma : ∀ t ∈ (split_line_into_tokens line).set pos value, ',' ∉ t := by
    intro t ht
    rcases List.mem_or_eq_of_mem_set ht with hmem | rfl
    · exact not_mem_of_mem_getlineSplit ',' line t hmem
    · exact hv
  rw [split_merge _ hcomma]
  have hlen : ((split_line_into_tokens line).set pos value).length = ncols := by
    rw [List.length_set, h]
  split
  · rw [List.length_dropLast, hlen]
  · exact hlen

theorem output_row_tokenization_witness :
    (split_line_into_tokens
        (merge_tokens_into_line
          ((split_line_into_tokens ['a', ',', 'b']).set 0 ['X']))).length
      = if ((split_line_into_tokens ['a', ',', 'b']).set 0 ['X']).getLast? = some []
        then 2 - 1 else 2 :=
  output_row_tokenization ['a', ',', 'b'] ['X'] 2 0 (by decide) (by decide) (by decide)

/-- C4 counterexample: solution_02 re-joins the PARSED header fields, and
its `csv_field` parser stops at an empty non-final field, so on the input
whose header is "A,,B" a run requesting column "A" succeeds yet writes the
first output line "A", which is not byte-identical to the input's first
line. -/
theorem header_altered_sol02 :
    (s02_main [['t'], ['i'], ['A'], ['X'], ['o']]
        (some ['A', ',', ',', 'B'])).exit_ok = true
    ∧ (s02_main [['t'], ['i'], ['A'], ['X'], ['o']]
        (some ['A', ',', ',', 'B'])).output = some [['A']]
    ∧ first_line (render_output [['A']]) ≠ first_line ['A', ',', ',', 'B'] := by decide

/-- C5 counterexample: solution_03 on the input "A,B\n1,2\n3\n4,5" (the
spec's Scenario 4) with column "A" and replacement "X" prints "error in
csv file" and exits at the malformed row "3" instead of skipping it: only
the row before it is written, so the output data-row count (1) is not the
input data-row count minus the number of malformed rows (3 - 1 = 2). -/
theorem malformed_row_aborts_sol03 :
    (s03_main [['t'], ['i'], ['A'], ['X'], ['o']]
        (some ['A', ',', 'B', '\n', '1', ',', '2', '\n', '3', '\n', '4', ',', '5'])).message
        = some s03_msg.csv_error
    ∧ (s03_main [['t'], ['i'], ['A'], ['X'], ['o']]
        (some ['A', ',', 'B', '\n', '1', ',', '2', '\n', '3', '\n', '4', ',', '5'])).output
        = some [['A', ',', 'B'], ['X', ',', '2']]
    ∧ count_malformed 2 [['1', ',', '2'], ['3'], ['4', ',', '5']] = 1
    ∧ [['X', ',', '2']].length
        ≠ [['1', ',', '2'], ['3'], ['4', ',', '5']].length
            - count_malformed 2 [['1', ',', '2'], ['3'], ['4', ',', '5']] := by decide
